import Mathlib

/-!
Verification of `src-tauri/check_versions_temp.py` (vocalix-v2).

The script defines one function `v(p, i)` that resolves an installed
version string for package `p` (queried via `pip show p`) with a
fallback to `__import__(i).__version__`, and prints a JSON object with
four fixed keys.  We shallow-embed the script: the external world
(subprocess results and importable modules) is an explicit `Env`, the
function `v` and the module-level `print(json.dumps(...))` become Lean
functions over it.  `Except.error ()` models an uncaught Python
exception propagating out.
-/

namespace CheckVersions

/-- Result of a completed `subprocess.run` call with captured text stdout.
The script never reads `returncode`; it is carried to state that fact. -/
structure CompletedProcess where
  stdout : String
  returncode : Int
deriving DecidableEq

/-- The external world of one script run: `pipShow p` is the outcome of
`subprocess.run([sys.executable, "-m", "pip", "show", p], ...)` — `none`
when `subprocess.run` itself raises, `some r` when a process completed
(with any exit status).  `importVersion i` is the outcome of evaluating
`__import__(i).__version__` — `none` when any exception is raised
during module load or attribute access, `some s` when it yields the
string `s`. -/
structure Env where
  pipShow : String → Option CompletedProcess
  importVersion : String → Option String

/-- Python `str.splitlines` on the common line terminators
`"\r\n"`, `"\r"`, `"\n"` (no trailing empty line). -/
def splitlinesChars : List Char → List Char → List String
  | [], acc => if acc.isEmpty then [] else [String.mk acc.reverse]
  | '\r' :: '\n' :: rest, acc => String.mk acc.reverse :: splitlinesChars rest []
  | '\r' :: rest, acc => String.mk acc.reverse :: splitlinesChars rest []
  | '\n' :: rest, acc => String.mk acc.reverse :: splitlinesChars rest []
  | c :: rest, acc => splitlinesChars rest (c :: acc)

/-- `r.stdout.splitlines()` -/
def splitlines (s : String) : List String := splitlinesChars s.data []

/-- `l.lower().startswith("version:")` (ASCII lowering, as relevant to the
all-ASCII prefix being matched). -/
def isVersionLine (l : String) : Bool :=
  "version:".data.isPrefixOf (l.data.map Char.toLower)

/-- `l.split(":", 1)[1]`: everything after the first colon (`none` when the
line has no colon, in which case Python would raise; the guard
`isVersionLine` guarantees a colon is present on every use). -/
def afterFirstColon : List Char → Option String
  | [] => none
  | ':' :: rest => some (String.mk rest)
  | _ :: rest => afterFirstColon rest

/-- Whitespace as stripped by Python `str.strip()` (the ASCII part). -/
def pyIsSpace (c : Char) : Bool :=
  c = ' ' ∨ c = '\t' ∨ c = '\n' ∨ c = '\r' ∨ c = '\x0b' ∨ c = '\x0c'

/-- Python `str.strip()`: drop leading and trailing whitespace. -/
def pyStrip (s : String) : String :=
  String.mk (((s.data.dropWhile pyIsSpace).reverse.dropWhile pyIsSpace).reverse)

/-- `l.split(":", 1)[1].strip()`: the value extracted from a version line. -/
def versionOfLine (l : String) : String :=
  pyStrip ((afterFirstColon l.data).getD "")

/-- The `for l in r.stdout.splitlines()` loop body: return the extracted
value of the first line whose lowercase form starts with `"version:"`. -/
def findVersion : List String → Option String
  | [] => none
  | l :: ls => if isVersionLine l then some (versionOfLine l) else findVersion ls

/-- The `try: return __import__(i).__version__ / except: return "not installed"`
fallback, applied to the modelled outcome of the attribute read. -/
def importFallback : Option String → String
  | some s => s
  | none => "not installed"

/-- `def v(p, i)` of check_versions_temp.py.  `Except.error ()` is an
uncaught exception: only `subprocess.run` raising is outside any handler. -/
def v (env : Env) (p i : String) : Except Unit String :=
  match env.pipShow p with
  | none => Except.error ()
  | some r =>
    match findVersion (splitlines r.stdout) with
    | some ver => Except.ok ver
    | none => Except.ok (importFallback (env.importVersion i))

/-- The four query-name / module-name pairs the script passes to `v`,
in the order the dict literal evaluates them. -/
def packages : List (String × String) :=
  [("rvc-python", "rvc"), ("edge-tts", "edge_tts"),
   ("torch", "torch"), ("torchaudio", "torchaudio")]

/-- The dict built at module level:
`{"rvc-python": v("rvc-python","rvc"), ..., "torchaudio": v("torchaudio","torchaudio")}`.
An uncaught exception in any of the four calls propagates (Python
evaluates the dict literal left to right). -/
def script (env : Env) : Except Unit (List (String × String)) :=
  match v env "rvc-python" "rvc" with
  | Except.error e => Except.error e
  | Except.ok a =>
    match v env "edge-tts" "edge_tts" with
    | Except.error e => Except.error e
    | Except.ok b =>
      match v env "torch" "torch" with
      | Except.error e => Except.error e
      | Except.ok c =>
        match v env "torchaudio" "torchaudio" with
        | Except.error e => Except.error e
        | Except.ok d =>
          Except.ok [("rvc-python", a), ("edge-tts", b),
                     ("torch", c), ("torchaudio", d)]

/-- Hexadecimal digit as emitted by `json.dumps` (lowercase). -/
def hexDigit : Nat → Char
  | 0 => '0' | 1 => '1' | 2 => '2' | 3 => '3' | 4 => '4'
  | 5 => '5' | 6 => '6' | 7 => '7' | 8 => '8' | 9 => '9'
  | 10 => 'a' | 11 => 'b' | 12 => 'c' | 13 => 'd' | 14 => 'e' | 15 => 'f'
  | _ => '0'

/-- A `\uXXXX` escape for a code unit below 0x10000. -/
def uEscape (n : Nat) : List Char :=
  ['\\', 'u', hexDigit (n / 4096 % 16), hexDigit (n / 256 % 16),
   hexDigit (n / 16 % 16), hexDigit (n % 16)]

/-- `json.dumps` escaping of one character (default `ensure_ascii=True`):
everything outside the printable ASCII range `0x20..0x7e` is escaped,
with the usual two-character shortcuts and surrogate pairs above 0xFFFF. -/
def jsonEscapeChar (c : Char) : List Char :=
  if c = '"' then ['\\', '"']
  else if c = '\\' then ['\\', '\\']
  else if c = '\n' then ['\\', 'n']
  else if c = '\t' then ['\\', 't']
  else if c = '\r' then ['\\', 'r']
  else if c = '\x08' then ['\\', 'b']
  else if c = '\x0c' then ['\\', 'f']
  else if c.toNat < 32 ∨ 126 < c.toNat then
    if c.toNat < 65536 then uEscape c.toNat
    else uEscape (55296 + (c.toNat - 65536) / 1024) ++
         uEscape (56320 + (c.toNat - 65536) % 1024)
  else [c]

/-- A JSON string literal for `s`, as `json.dumps` renders it. -/
def jsonString (s : String) : String :=
  String.mk ('"' :: (s.data.map jsonEscapeChar).flatten ++ ['"'])

/-- One member line of the indent-2 rendering: `  "k": "v"`. -/
def memberLine (kv : String × String) : String :=
  "  " ++ jsonString kv.1 ++ ": " ++ jsonString kv.2

/-- The member lines joined by `",\n"`. -/
def membersBody : List (String × String) → String
  | [] => ""
  | [kv] => memberLine kv
  | kv :: rest => memberLine kv ++ ",\n" ++ membersBody rest

/-- `json.dumps(m, indent=2)` for a string-to-string mapping. -/
def dumpsIndent2 (m : List (String × String)) : String :=
  if m.isEmpty then "\x7b\x7d" else "\x7b\n" ++ membersBody m ++ "\n\x7d"

/-- The full printed output of the script, when no exception propagates. -/
def scriptOutput (env : Env) : Except Unit String :=
  (script env).map dumpsIndent2

/-!
A recognizer for the JSON fragment `object whose values are all strings`,
used to state that the printed output is well-formed.  It is independent
of the serializer: a plain JSON scanner specialized to that shape.
-/

/-- JSON insignificant whitespace. -/
def jsonWs (c : Char) : Bool :=
  c = ' ' ∨ c = '\n' ∨ c = '\t' ∨ c = '\r'

/-- Skip insignificant whitespace. -/
def skipWs : List Char → List Char
  | [] => []
  | c :: rest => if jsonWs c then skipWs rest else c :: rest

/-- A hexadecimal digit, as allowed after `\u` in a JSON string. -/
def isHexDigitChar (c : Char) : Bool :=
  c.isDigit ∨ ('a' ≤ c ∧ c ≤ 'f') ∨ ('A' ≤ c ∧ c ≤ 'F')

/-- Scan the body of a JSON string literal after its opening quote;
return the input remaining after the closing quote. -/
def scanStringBody : List Char → Option (List Char)
  | [] => none
  | c :: rest =>
    if c = '"' then some rest
    else if c = '\\' then
      match rest with
      | [] => none
      | e :: rest2 =>
        if e = 'u' then
          match rest2 with
          | a :: b :: c2 :: d :: rest3 =>
            if isHexDigitChar a ∧ isHexDigitChar b ∧ isHexDigitChar c2 ∧ isHexDigitChar d
            then scanStringBody rest3 else none
          | _ => none
        else if e = '"' ∨ e = '\\' ∨ e = '/' ∨ e = 'b' ∨ e = 'f' ∨ e = 'n' ∨ e = 'r' ∨ e = 't'
        then scanStringBody rest2
        else none
    else if 32 ≤ c.toNat then scanStringBody rest
    else none

/-- Scan a nonempty member list `"k" : "v" (, "k" : "v")*` followed by a
closing brace; return the input remaining after the brace.  `fuel` bounds
the number of members. -/
def scanMembers : Nat → List Char → Option (List Char)
  | 0, _ => none
  | fuel + 1, s =>
    match skipWs s with
    | [] => none
    | c :: rest =>
      if c = '"' then
        match scanStringBody rest with
        | none => none
        | some rest2 =>
          match skipWs rest2 with
          | [] => none
          | c2 :: rest3 =>
            if c2 = ':' then
              match skipWs rest3 with
              | [] => none
              | c3 :: rest4 =>
                if c3 = '"' then
                  match scanStringBody rest4 with
                  | none => none
                  | some rest5 =>
                    match skipWs rest5 with
                    | [] => none
                    | c4 :: rest6 =>
                      if c4 = ',' then scanMembers fuel rest6
                      else if c4 = '\x7d' then some rest6
                      else none
                else none
            else none
      else none

/-- `s` is a well-formed JSON object all of whose values are strings. -/
def isJsonStringObject (s : String) : Bool :=
  match skipWs s.data with
  | [] => false
  | c :: rest =>
    if c = '\x7b' then
      match skipWs rest with
      | [] => false
      | c2 :: rest2 =>
        if c2 = '\x7d' then (skipWs rest2).isEmpty
        else
          match scanMembers (s.length + 1) rest with
          | some rest3 => (skipWs rest3).isEmpty
          | none => false
    else false

/-!
Concrete single-run environments, used to instantiate the theorems below.
-/

/-- Every pip show query reports a version line. -/
def envVersionLine : Env :=
  ⟨fun _ => some ⟨"Name: torch\nVersion: 2.1.0\n", 0⟩, fun _ => none⟩

/-- Every pip show query completes with empty output; no module imports. -/
def envAbsent : Env := ⟨fun _ => some ⟨"", 0⟩, fun _ => none⟩

/-- pip show completes unsuccessfully (exit status 1, diagnostic output,
no version line); the import fallback yields a version. -/
def envImportOnly : Env :=
  ⟨fun _ => some ⟨"WARNING: Package(s) not found: torch\n", 1⟩, fun _ => some "3.4.5"⟩

/-- Identical to `envImportOnly` except the subprocess exits with status 0. -/
def envRc0 : Env :=
  ⟨fun _ => some ⟨"WARNING: Package(s) not found: torch\n", 0⟩, fun _ => some "3.4.5"⟩

/-- subprocess.run itself raises on every query. -/
def envRunRaises : Env := ⟨fun _ => none, fun _ => none⟩

/-- pip show emits a version line with an empty remainder. -/
def envEmptyVer : Env := ⟨fun _ => some ⟨"Version:\n", 0⟩, fun _ => none⟩

/-- Identical to `envEmptyVer` except the import fallback would succeed. -/
def envEmptyVer2 : Env := ⟨fun _ => some ⟨"Version:\n", 0⟩, fun _ => some "X"⟩

/-! ### Helper lemmas -/

/-- The scan loop in `v` returns the extracted value of the first matching
line, in terms of `List.find?`. -/
lemma findVersion_eq_find (ls : List String) :
    findVersion ls = (ls.find? isVersionLine).map versionOfLine := by
  induction ls with
  | nil => rfl
  | cons l ls ih =>
    by_cases h : isVersionLine l <;> simp [findVersion, List.find?_cons, h, ih]

lemma isHexDigitChar_hexDigit : ∀ n : Nat, isHexDigitChar (hexDigit n) = true
  | 0 => rfl | 1 => rfl | 2 => rfl | 3 => rfl | 4 => rfl
  | 5 => rfl | 6 => rfl | 7 => rfl | 8 => rfl | 9 => rfl
  | 10 => rfl | 11 => rfl | 12 => rfl | 13 => rfl | 14 => rfl | 15 => rfl
  | _ + 16 => rfl

lemma scanStringBody_cons (c : Char) (rest : List Char) :
    scanStringBody (c :: rest) =
      if c = '"' then some rest
      else if c = '\\' then
        match rest with
        | [] => none
        | e :: rest2 =>
          if e = 'u' then
            match rest2 with
            | a :: b :: c2 :: d :: rest3 =>
              if isHexDigitChar a ∧ isHexDigitChar b ∧ isHexDigitChar c2 ∧ isHexDigitChar d
              then scanStringBody rest3 else none
            | _ => none
          else if e = '"' ∨ e = '\\' ∨ e = '/' ∨ e = 'b' ∨ e = 'f' ∨ e = 'n' ∨ e = 'r' ∨ e = 't'
          then scanStringBody rest2
          else none
      else if 32 ≤ c.toNat then scanStringBody rest
      else none := by
  rw [scanStringBody.eq_def]

lemma scanStringBody_uEscape (n : Nat) (rest : List Char) :
    scanStringBody (uEscape n ++ rest) = scanStringBody rest := by
  simp [uEscape, scanStringBody_cons, isHexDigitChar_hexDigit]

/-- Scanning the escape sequence emitted for one character consumes
exactly that sequence. -/
lemma scanStringBody_jsonEscapeChar (c : Char) (rest : List Char) :
    scanStringBody (jsonEscapeChar c ++ rest) = scanStringBody rest := by
  unfold jsonEscapeChar
  split_ifs with h1 h2 h3 h4 h5 h6 h7 h8 h9
  · simp [scanStringBody_cons]
  · simp [scanStringBody_cons]
  · simp [scanStringBody_cons]
  · simp [scanStringBody_cons]
  · simp [scanStringBody_cons]
  · simp [scanStringBody_cons]
  · simp [scanStringBody_cons]
  · exact scanStringBody_uEscape _ _
  · rw [List.append_assoc, scanStringBody_uEscape, scanStringBody_uEscape]
  · rw [List.singleton_append, scanStringBody_cons]
    rw [if_neg h1, if_neg h2, if_pos (by omega : 32 ≤ c.toNat)]

/-- Scanning the full escaped body of a string consumes it up to and
including the closing quote. -/
lemma scanStringBody_escaped (content rest : List Char) :
    scanStringBody ((content.map jsonEscapeChar).flatten ++ ('"' :: rest)) =
      some rest := by
  induction content with
  | nil => simp [scanStringBody_cons]
  | cons c cs ih =>
    simp only [List.map_cons, List.flatten_cons, List.append_assoc]
    rw [scanStringBody_jsonEscapeChar]
    exact ih

lemma skipWs_cons_of_ws (c : Char) (h : jsonWs c = true) (s : List Char) :
    skipWs (c :: s) = skipWs s := by simp [skipWs, h]

lemma skipWs_cons_of_not_ws (c : Char) (h : jsonWs c = false) (s : List Char) :
    skipWs (c :: s) = c :: s := by simp [skipWs, h]

lemma jsonString_data (s : String) :
    (jsonString s).data = '"' :: ((s.data.map jsonEscapeChar).flatten ++ ['"']) := rfl

lemma scanMembers_succ_ws (fuel : Nat) (c : Char) (hc : jsonWs c = true)
    (s : List Char) :
    scanMembers (fuel + 1) (c :: s) = scanMembers (fuel + 1) s := by
  simp only [scanMembers, skipWs_cons_of_ws c hc]

/-- Scanning one serialized member consumes the member line; what happens
next depends only on the first significant character after it. -/
lemma scanMembers_memberLine (kv : String × String) (fuel : Nat)
    (after : List Char) :
    scanMembers (fuel + 1) ((memberLine kv).data ++ after) =
      (match skipWs after with
       | [] => none
       | c4 :: rest6 =>
         if c4 = ',' then scanMembers fuel rest6
         else if c4 = '\x7d' then some rest6
         else none) := by
  have hdata : (memberLine kv).data ++ after =
      ' ' :: ' ' :: '"' :: ((kv.1.data.map jsonEscapeChar).flatten ++
        ('"' :: ':' :: ' ' :: '"' :: ((kv.2.data.map jsonEscapeChar).flatten ++
          ('"' :: after)))) := by
    simp [memberLine, String.data_append, jsonString_data, List.append_assoc]
  rw [hdata]
  simp only [scanMembers]
  rw [skipWs_cons_of_ws ' ' rfl, skipWs_cons_of_ws ' ' rfl,
      skipWs_cons_of_not_ws '"' rfl]
  simp only [scanStringBody_escaped, reduceIte]
  rw [skipWs_cons_of_not_ws ':' rfl]
  simp only [reduceIte]
  rw [skipWs_cons_of_ws ' ' rfl, skipWs_cons_of_not_ws '"' rfl]
  simp only [scanStringBody_escaped, reduceIte]

lemma membersBody_cons_cons (kv kv2 : String × String)
    (rest : List (String × String)) :
    (membersBody (kv :: kv2 :: rest)).data =
      (memberLine kv).data ++ (',' :: '\n' :: (membersBody (kv2 :: rest)).data) := by
  simp [membersBody, String.data_append]

lemma memberLine_data (kv : String × String) :
    (memberLine kv).data =
      ' ' :: ' ' :: ((jsonString kv.1).data ++ (':' :: ' ' :: (jsonString kv.2).data)) := by
  simp [memberLine, String.data_append]

/-- The member list of `membersBody` scans completely, for any fuel at
least the number of members. -/
lemma scanMembers_membersBody :
    ∀ (m : List (String × String)) (fuel : Nat), m ≠ [] → m.length ≤ fuel →
      ∀ tail : List Char,
        scanMembers fuel ((membersBody m).data ++ ('\n' :: '\x7d' :: tail)) =
          some tail := by
  intro m
  induction m with
  | nil => intro fuel hne; exact absurd rfl hne
  | cons kv rest ih =>
    intro fuel _ hf tail
    match rest, fuel, hf with
    | [], fuel + 1, _ =>
      show scanMembers (fuel + 1) ((memberLine kv).data ++ ('\n' :: '\x7d' :: tail)) = some tail
      rw [scanMembers_memberLine, skipWs_cons_of_ws '\n' rfl,
          skipWs_cons_of_not_ws '\x7d' rfl]
      simp
    | kv2 :: rest2, fuel + 1 + 1, hf =>
      rw [membersBody_cons_cons, List.append_assoc, List.cons_append,
          List.cons_append, scanMembers_memberLine]
      rw [skipWs_cons_of_not_ws ',' rfl]
      simp only [reduceIte]
      rw [scanMembers_succ_ws fuel '\n' rfl]
      exact ih (fuel + 1) (by simp) (by simp at hf ⊢; omega) tail

lemma one_le_length_memberLine (kv : String × String) :
    1 ≤ (memberLine kv).data.length := by
  rw [memberLine_data]
  simp

lemma length_le_length_membersBody :
    ∀ m : List (String × String), m ≠ [] → m.length ≤ (membersBody m).data.length := by
  intro m
  induction m with
  | nil => intro hne; exact absurd rfl hne
  | cons kv rest ih =>
    intro _
    match rest with
    | [] => simpa using one_le_length_memberLine kv
    | kv2 :: rest2 =>
      have h1 := one_le_length_memberLine kv
      have h2 := ih (by simp)
      have h3 : (membersBody (kv :: kv2 :: rest2)).data.length =
          (memberLine kv).data.length + 2 + (membersBody (kv2 :: rest2)).data.length := by
        rw [membersBody_cons_cons]
        simp only [List.length_append, List.length_cons]
        omega
      simp only [List.length_cons] at h2 ⊢
      omega

/-- The head of a nonempty serialized member list is `' '`-indent then a
string opener. -/
lemma membersBody_head (kv : String × String) (rest : List (String × String)) :
    ∃ z, (membersBody (kv :: rest)).data = ' ' :: ' ' :: '"' :: z := by
  match rest with
  | [] =>
    refine ⟨((kv.1.data.map jsonEscapeChar).flatten ++ ['"']) ++
      (':' :: ' ' :: (jsonString kv.2).data), ?_⟩
    show (memberLine kv).data = _
    rw [memberLine_data, jsonString_data]
    simp
  | kv2 :: rest2 =>
    refine ⟨((kv.1.data.map jsonEscapeChar).flatten ++ ['"']) ++
      ((':' :: ' ' :: (jsonString kv.2).data) ++
        (',' :: '\n' :: (membersBody (kv2 :: rest2)).data)), ?_⟩
    rw [membersBody_cons_cons, memberLine_data, jsonString_data]
    simp

/-- The serializer emits a well-formed JSON object of strings for every
nonempty mapping. -/
lemma isJsonStringObject_dumps (m : List (String × String)) (hm : m ≠ []) :
    isJsonStringObject (dumpsIndent2 m) = true := by
  obtain ⟨kv, rest, rfl⟩ : ∃ kv rest, m = kv :: rest := by
    match m with
    | [] => exact absurd rfl hm
    | kv :: rest => exact ⟨kv, rest, rfl⟩
  have hdata : (dumpsIndent2 (kv :: rest)).data =
      '\x7b' :: '\n' :: ((membersBody (kv :: rest)).data ++ ('\n' :: '\x7d' :: [])) := by
    simp [dumpsIndent2, String.data_append]
  obtain ⟨z, hz⟩ := membersBody_head kv rest
  have hlen : (kv :: rest).length ≤ (dumpsIndent2 (kv :: rest)).length + 1 := by
    have h1 := length_le_length_membersBody (kv :: rest) (by simp)
    have h2 : (dumpsIndent2 (kv :: rest)).length =
        (dumpsIndent2 (kv :: rest)).data.length := rfl
    rw [h2, hdata]
    simp at h1 ⊢
    omega
  have hskip : skipWs ('\n' :: ((membersBody (kv :: rest)).data ++ ('\n' :: '\x7d' :: []))) =
      '"' :: (z ++ ('\n' :: '\x7d' :: [])) := by
    rw [show ('\n' :: ((membersBody (kv :: rest)).data ++ ('\n' :: '\x7d' :: []))) =
          '\n' :: ' ' :: ' ' :: '"' :: (z ++ ('\n' :: '\x7d' :: [])) by rw [hz]; rfl]
    rw [skipWs_cons_of_ws '\n' rfl, skipWs_cons_of_ws ' ' rfl,
        skipWs_cons_of_ws ' ' rfl, skipWs_cons_of_not_ws '"' rfl]
  have hscan : scanMembers ((dumpsIndent2 (kv :: rest)).length + 1)
      ('\n' :: ((membersBody (kv :: rest)).data ++ ('\n' :: '\x7d' :: []))) = some [] := by
    rw [scanMembers_succ_ws ((dumpsIndent2 (kv :: rest)).length) '\n' rfl]
    exact scanMembers_membersBody (kv :: rest) _ (by simp) hlen []
  rw [isJsonStringObject, hdata]
  rw [skipWs_cons_of_not_ws '\x7b' rfl]
  simp only [reduceIte, hskip, hscan]
  rfl

/-- `v` after a completed subprocess, with the pip show result in view. -/
lemma v_eq_match (env : Env) (p i : String) (cp : CompletedProcess)
    (hp : env.pipShow p = some cp) :
    v env p i =
      (match findVersion (splitlines cp.stdout) with
       | some ver => Except.ok ver
       | none => Except.ok (importFallback (env.importVersion i))) := by
  unfold v
  rw [hp]

/-- Once the subprocess has completed, `v` returns a value: the bare
`except:` catches everything the fallback can raise. -/
lemma exists_ok_v (env : Env) (p i : String) (cp : CompletedProcess)
    (hp : env.pipShow p = some cp) : ∃ s : String, v env p i = Except.ok s := by
  rw [v_eq_match env p i cp hp]
  cases h : findVersion (splitlines cp.stdout) with
  | some ver => exact ⟨ver, rfl⟩
  | none => exact ⟨importFallback (env.importVersion i), rfl⟩

/-- The script's result, given the outcome of each of the four lookups. -/
lemma script_eq_of_v (env : Env) (a b c d : String)
    (ha : v env "rvc-python" "rvc" = Except.ok a)
    (hb : v env "edge-tts" "edge_tts" = Except.ok b)
    (hc : v env "torch" "torch" = Except.ok c)
    (hd : v env "torchaudio" "torchaudio" = Except.ok d) :
    script env = Except.ok
      [("rvc-python", a), ("edge-tts", b), ("torch", c), ("torchaudio", d)] := by
  simp only [script, ha, hb, hc, hd]

/-- Conversely, a successful script run determines the four lookup
results and the shape of the output mapping. -/
lemma script_ok_elim (env : Env) (m : List (String × String))
    (h : script env = Except.ok m) :
    ∃ a b c d : String,
      v env "rvc-python" "rvc" = Except.ok a ∧
      v env "edge-tts" "edge_tts" = Except.ok b ∧
      v env "torch" "torch" = Except.ok c ∧
      v env "torchaudio" "torchaudio" = Except.ok d ∧
      m = [("rvc-python", a), ("edge-tts", b), ("torch", c), ("torchaudio", d)] := by
  unfold script at h
  cases h1 : v env "rvc-python" "rvc" with
  | error e => simp only [h1] at h; exact Except.noConfusion h
  | ok a =>
    simp only [h1] at h
    cases h2 : v env "edge-tts" "edge_tts" with
    | error e => simp only [h2] at h; exact Except.noConfusion h
    | ok b =>
      simp only [h2] at h
      cases h3 : v env "torch" "torch" with
      | error e => simp only [h3] at h; exact Except.noConfusion h
      | ok c =>
        simp only [h3] at h
        cases h4 : v env "torchaudio" "torchaudio" with
        | error e => simp only [h4] at h; exact Except.noConfusion h
        | ok d =>
          simp only [h4, Except.ok.injEq] at h
          exact ⟨a, b, c, d, rfl, rfl, rfl, rfl, h.symm⟩

/-- If any one of the four lookups raises, the whole script raises. -/
lemma script_error_cases (env : Env)
    (h : v env "rvc-python" "rvc" = Except.error () ∨
         v env "edge-tts" "edge_tts" = Except.error () ∨
         v env "torch" "torch" = Except.error () ∨
         v env "torchaudio" "torchaudio" = Except.error ()) :
    script env = Except.error () := by
  unfold script
  cases h1 : v env "rvc-python" "rvc" with
  | error e => rfl
  | ok a =>
    cases h2 : v env "edge-tts" "edge_tts" with
    | error e => rfl
    | ok b =>
      cases h3 : v env "torch" "torch" with
      | error e => rfl
      | ok c =>
        cases h4 : v env "torchaudio" "torchaudio" with
        | error e => rfl
        | ok d =>
          rcases h with h | h | h | h
          · rw [h] at h1; exact absurd h1 (by simp)
          · rw [h] at h2; exact absurd h2 (by simp)
          · rw [h] at h3; exact absurd h3 (by simp)
          · rw [h] at h4; exact absurd h4 (by simp)

/-! ### Claims -/

/-- C1: when the captured pip show output for a package contains a line
starting, case-insensitively, with "version:", the lookup resolves to the
text of the first such line after its first colon, stripped of surrounding
whitespace. -/
theorem v_resolves_first_version_line (env : Env) (p i : String)
    (cp : CompletedProcess) (l : String)
    (hp : env.pipShow p = some cp)
    (hl : (splitlines cp.stdout).find? isVersionLine = some l) :
    v env p i = Except.ok (versionOfLine l) := by
  rw [v_eq_match env p i cp hp, findVersion_eq_find, hl]
  rfl

/-- C1 witness at a concrete run: "Version: 2.1.0" resolves to "2.1.0". -/
theorem v_resolves_first_version_line_witness :
    v envVersionLine "torch" "torch" = Except.ok "2.1.0" :=
  (v_resolves_first_version_line envVersionLine "torch" "torch"
      ⟨"Name: torch\nVersion: 2.1.0\n", 0⟩ "Version: 2.1.0" rfl (by decide)).trans
    (congrArg Except.ok (by decide))

/-- C2: when no line of the pip show output starts, case-insensitively,
with "version:" and the import fallback raises, the lookup resolves to the
literal string "not installed". -/
theorem v_not_installed_of_unresolvable (env : Env) (p i : String)
    (cp : CompletedProcess)
    (hp : env.pipShow p = some cp)
    (hl : (splitlines cp.stdout).find? isVersionLine = none)
    (hi : env.importVersion i = none) :
    v env p i = Except.ok "not installed" := by
  rw [v_eq_match env p i cp hp, findVersion_eq_find, hl, hi]
  rfl

/-- C2 witness: empty pip show output and a failing import. -/
theorem v_not_installed_of_unresolvable_witness :
    v envAbsent "rvc-python" "rvc" = Except.ok "not installed" :=
  v_not_installed_of_unresolvable envAbsent "rvc-python" "rvc" ⟨"", 0⟩ rfl
    (by decide) rfl

/-- C3: once the subprocess has completed, every exception the import
fallback can raise is caught: the lookup returns a value for every
possible fallback outcome, and no exception escapes it. -/
theorem v_fallback_never_raises (env : Env) (p i : String)
    (cp : CompletedProcess) (hp : env.pipShow p = some cp) :
    ∃ s : String, v env p i = Except.ok s :=
  exists_ok_v env p i cp hp

/-- C3 witness: a lookup whose fallback raises still returns a value. -/
theorem v_fallback_never_raises_witness :
    ∃ s : String, v envAbsent "edge-tts" "edge_tts" = Except.ok s :=
  v_fallback_never_raises envAbsent "edge-tts" "edge_tts" ⟨"", 0⟩ rfl

/-- C4 counterexample: an execution in which subprocess.run raises does
not terminate successfully, so termination is not unconditional. -/
theorem script_failure_possible : script envRunRaises = Except.error () := rfl

/-- C4 (amended): in every execution where each pip show subprocess
invocation completes without raising, the script terminates successfully;
every failure inside the four lookups' fallbacks is absorbed into the
resolved values. -/
theorem script_ok_of_subprocess_ok (env : Env)
    (h : ∀ p, (env.pipShow p).isSome) :
    ∃ m, script env = Except.ok m := by
  obtain ⟨cp1, h1⟩ := Option.isSome_iff_exists.mp (h "rvc-python")
  obtain ⟨cp2, h2⟩ := Option.isSome_iff_exists.mp (h "edge-tts")
  obtain ⟨cp3, h3⟩ := Option.isSome_iff_exists.mp (h "torch")
  obtain ⟨cp4, h4⟩ := Option.isSome_iff_exists.mp (h "torchaudio")
  obtain ⟨a, ha⟩ := exists_ok_v env "rvc-python" "rvc" cp1 h1
  obtain ⟨b, hb⟩ := exists_ok_v env "edge-tts" "edge_tts" cp2 h2
  obtain ⟨c, hc⟩ := exists_ok_v env "torch" "torch" cp3 h3
  obtain ⟨d, hd⟩ := exists_ok_v env "torchaudio" "torchaudio" cp4 h4
  exact ⟨_, script_eq_of_v env a b c d ha hb hc hd⟩

/-- C4 witness: a run with all subprocesses completing ends successfully. -/
theorem script_ok_of_subprocess_ok_witness :
    ∃ m, script envAbsent = Except.ok m :=
  script_ok_of_subprocess_ok envAbsent (fun _ => rfl)

/-- C5: if subprocess.run itself raises for any of the four packages, the
exception is caught nowhere in the lookup and propagates out of the
script, terminating it with an error. -/
theorem subprocess_failure_uncaught (env : Env) (p i : String)
    (hmem : (p, i) ∈ packages)
    (hp : env.pipShow p = none) :
    v env p i = Except.error () ∧ script env = Except.error () := by
  have hv : ∀ j, v env p j = Except.error () := by
    intro j; unfold v; rw [hp]
  refine ⟨hv i, script_error_cases env ?_⟩
  simp only [packages, List.mem_cons, List.mem_singleton, Prod.mk.injEq,
    List.not_mem_nil, or_false] at hmem
  rcases hmem with ⟨rfl, rfl⟩ | ⟨rfl, rfl⟩ | ⟨rfl, rfl⟩ | ⟨rfl, rfl⟩
  · exact Or.inl (hv "rvc")
  · exact Or.inr (Or.inl (hv "edge_tts"))
  · exact Or.inr (Or.inr (Or.inl (hv "torch")))
  · exact Or.inr (Or.inr (Or.inr (hv "torchaudio")))

/-- C5 witness: a raising subprocess aborts the lookup and the script. -/
theorem subprocess_failure_uncaught_witness :
    v envRunRaises "torch" "torch" = Except.error () ∧
    script envRunRaises = Except.error () :=
  subprocess_failure_uncaught envRunRaises "torch" "torch" (by decide) rfl

/-- C6: the import fallback is consulted exactly when no line of the pip
show output starts, case-insensitively, with "version:": with no such line
the result is exactly the fallback's outcome, and with such a line its
(possibly empty) extracted remainder is returned and the result does not
depend on the import fallback at all. -/
theorem fallback_iff_no_version_line (env env2 : Env) (p i : String)
    (cp : CompletedProcess)
    (hp : env.pipShow p = some cp) (hp2 : env2.pipShow p = some cp) :
    ((splitlines cp.stdout).find? isVersionLine = none →
        v env p i = Except.ok (importFallback (env.importVersion i))) ∧
    (∀ l, (splitlines cp.stdout).find? isVersionLine = some l →
        v env p i = Except.ok (versionOfLine l) ∧ v env2 p i = v env p i) := by
  constructor
  · intro hl
    rw [v_eq_match env p i cp hp, findVersion_eq_find, hl]
    rfl
  · intro l hl
    constructor
    · rw [v_eq_match env p i cp hp, findVersion_eq_find, hl]
      rfl
    · rw [v_eq_match env p i cp hp, v_eq_match env2 p i cp hp2,
          findVersion_eq_find, hl]
      rfl

/-- C6 witness: a bare "Version:" line yields its empty remainder and the
result is unchanged when the import fallback's outcome differs. -/
theorem fallback_iff_no_version_line_witness :
    v envEmptyVer "torch" "torch" = Except.ok (versionOfLine "Version:") ∧
    v envEmptyVer2 "torch" "torch" = v envEmptyVer "torch" "torch" :=
  (fallback_iff_no_version_line envEmptyVer envEmptyVer2 "torch" "torch"
    ⟨"Version:\n", 0⟩ rfl rfl).2 "Version:" (by decide)

/-- C7: with no matching version line in the pip show output, a
fallback import that yields a version value makes the lookup resolve
to it. -/
theorem v_import_fallback_value (env : Env) (p i : String)
    (cp : CompletedProcess) (s : String)
    (hp : env.pipShow p = some cp)
    (hl : (splitlines cp.stdout).find? isVersionLine = none)
    (hi : env.importVersion i = some s) :
    v env p i = Except.ok s := by
  rw [v_eq_match env p i cp hp, findVersion_eq_find, hl, hi]
  rfl

/-- C7 witness: pip show finds nothing, the import fallback reports 3.4.5. -/
theorem v_import_fallback_value_witness :
    v envImportOnly "torchaudio" "torchaudio" = Except.ok "3.4.5" :=
  v_import_fallback_value envImportOnly "torchaudio" "torchaudio"
    ⟨"WARNING: Package(s) not found: torch\n", 1⟩ "3.4.5" rfl (by decide) rfl

/-- C8: every execution reaching the output step prints the serialization
of a mapping with exactly the four fixed keys, every value a string; the
printed text is a well-formed JSON object of strings. -/
theorem output_always_four_keys_json (env : Env) (m : List (String × String))
    (h : script env = Except.ok m) :
    m.map Prod.fst = ["rvc-python", "edge-tts", "torch", "torchaudio"] ∧
    scriptOutput env = Except.ok (dumpsIndent2 m) ∧
    isJsonStringObject (dumpsIndent2 m) = true := by
  obtain ⟨a, b, c, d, _, _, _, _, rfl⟩ := script_ok_elim env m h
  refine ⟨rfl, ?_, isJsonStringObject_dumps _ (by simp)⟩
  unfold scriptOutput
  rw [h]
  rfl

/-- C8 witness at a concrete run with all four packages unresolvable. -/
theorem output_always_four_keys_json_witness :
    ([("rvc-python", "not installed"), ("edge-tts", "not installed"),
      ("torch", "not installed"), ("torchaudio", "not installed")].map Prod.fst =
        ["rvc-python", "edge-tts", "torch", "torchaudio"]) ∧
    scriptOutput envAbsent = Except.ok (dumpsIndent2
      [("rvc-python", "not installed"), ("edge-tts", "not installed"),
       ("torch", "not installed"), ("torchaudio", "not installed")]) ∧
    isJsonStringObject (dumpsIndent2
      [("rvc-python", "not installed"), ("edge-tts", "not installed"),
       ("torch", "not installed"), ("torchaudio", "not installed")]) = true :=
  output_always_four_keys_json envAbsent
    [("rvc-python", "not installed"), ("edge-tts", "not installed"),
     ("torch", "not installed"), ("torchaudio", "not installed")] rfl

/-- C9: a successful run's output lists the four entries in the fixed
order rvc-python, edge-tts, torch, torchaudio, each bound to the result of
its lookup with the fixed query-name/module-name pair. -/
theorem output_order_and_pairs (env : Env) (m : List (String × String))
    (h : script env = Except.ok m) :
    ∃ a b c d : String,
      v env "rvc-python" "rvc" = Except.ok a ∧
      v env "edge-tts" "edge_tts" = Except.ok b ∧
      v env "torch" "torch" = Except.ok c ∧
      v env "torchaudio" "torchaudio" = Except.ok d ∧
      m = [("rvc-python", a), ("edge-tts", b), ("torch", c), ("torchaudio", d)] :=
  script_ok_elim env m h

/-- C9 witness at a concrete run where pip show reports 2.1.0 for all. -/
theorem output_order_and_pairs_witness :
    ∃ a b c d : String,
      v envVersionLine "rvc-python" "rvc" = Except.ok a ∧
      v envVersionLine "edge-tts" "edge_tts" = Except.ok b ∧
      v envVersionLine "torch" "torch" = Except.ok c ∧
      v envVersionLine "torchaudio" "torchaudio" = Except.ok d ∧
      [("rvc-python", "2.1.0"), ("edge-tts", "2.1.0"),
       ("torch", "2.1.0"), ("torchaudio", "2.1.0")] =
        [("rvc-python", a), ("edge-tts", b), ("torch", c), ("torchaudio", d)] :=
  output_order_and_pairs envVersionLine
    [("rvc-python", "2.1.0"), ("edge-tts", "2.1.0"),
     ("torch", "2.1.0"), ("torchaudio", "2.1.0")] rfl

/-- C10: the subprocess exit status is never inspected: for completed
processes the lookup depends only on the captured stdout (and the import
environment), it never raises, and with no matching version line it
proceeds to the import fallback exactly as for an absent package. -/
theorem returncode_never_inspected (env env2 : Env) (p i : String)
    (cp cp2 : CompletedProcess)
    (hp : env.pipShow p = some cp) (hp2 : env2.pipShow p = some cp2)
    (hout : cp.stdout = cp2.stdout)
    (himp : env.importVersion = env2.importVersion) :
    v env p i = v env2 p i ∧
    (∃ s : String, v env p i = Except.ok s) ∧
    ((splitlines cp.stdout).find? isVersionLine = none →
      v env p i = Except.ok (importFallback (env.importVersion i))) := by
  refine ⟨?_, exists_ok_v env p i cp hp, ?_⟩
  · rw [v_eq_match env p i cp hp, v_eq_match env2 p i cp2 hp2, hout, himp]
  · intro hl
    rw [v_eq_match env p i cp hp, findVersion_eq_find, hl]
    rfl

/-- C10 witness: exit status 1 versus 0 with identical stdout gives the
same result, and a failed query falls through to the import fallback. -/
theorem returncode_never_inspected_witness :
    v envImportOnly "torch" "torch" = v envRc0 "torch" "torch" ∧
    v envImportOnly "torch" "torch" =
      Except.ok (importFallback (envImportOnly.importVersion "torch")) :=
  ⟨(returncode_never_inspected envImportOnly envRc0 "torch" "torch"
      ⟨"WARNING: Package(s) not found: torch\n", 1⟩
      ⟨"WARNING: Package(s) not found: torch\n", 0⟩ rfl rfl rfl rfl).1,
   (returncode_never_inspected envImportOnly envRc0 "torch" "torch"
      ⟨"WARNING: Package(s) not found: torch\n", 1⟩
      ⟨"WARNING: Package(s) not found: torch\n", 0⟩ rfl rfl rfl rfl).2.2
     (by decide)⟩

end CheckVersions
